import Mathlib

/-!
Verification of `costvariable.py` from the CANOE fuel-cost pipeline.

The Python module builds the `CostVariable` table: a price resolver
(`_calc_value`, with its safe lookup `_safe_base_from_cost`) and a table
builder (`build_costvariable`).  In this development floats are modelled as
exact rationals (`ℚ`), pandas DataFrames as lists of typed rows, Python
dicts as association lists, and the `KeyError` abort path as `Option`
(`none` = the pass raised).  Python's string primitives `in`, `lower` and
`strip` are modelled by executable char-list functions below.
-/

namespace CostVariable

/-- Python's prefix test on char lists (helper for the `in` operator). -/
def hasPref : List Char → List Char → Bool
  | [], _ => true
  | _ :: _, [] => false
  | p :: ps, c :: cs => p == c && hasPref ps cs

/-- Substring occurrence of `pat` at any position of the second list. -/
def hasSub (pat : List Char) : List Char → Bool
  | [] => hasPref pat []
  | c :: cs => hasPref pat (c :: cs) || hasSub pat cs

/-- Python's `pat in s` substring test. -/
def strContains (s pat : String) : Bool := hasSub pat.data s.data

/-- Python's `s.lower()` (ASCII, which covers every token the module uses). -/
def strLower (s : String) : String := ⟨s.data.map Char.toLower⟩

/-- Whitespace test used by `strip`. -/
def isWS (c : Char) : Bool := c == ' ' || c == '\t' || c == '\n' || c == '\r'

/-- Python's `s.strip()`: drop leading and trailing whitespace. -/
def strTrim (s : String) : String :=
  ⟨((s.data.dropWhile isWS).reverse.dropWhile isWS).reverse⟩

/-- One row of the Raw Cost Table `cost_df` (after the `astype` coercions at
the top of `build_costvariable`: `period` integer, `Tech Name` string,
`value` float). -/
structure CostRow where
  period : Int
  techName : String
  value : ℚ
deriving DecidableEq

/-- `_safe_base_from_cost`: first row of `cost_df` matching
`(period, Tech Name)` exactly, else `0.0` (with a printed warning, which has
no observable effect modelled here).  It never raises. -/
def _safe_base_from_cost (cost_df : List CostRow) (period_val : Int)
    (tech_name : String) : ℚ :=
  match cost_df.find? (fun r => r.period == period_val && r.techName == tech_name) with
  | some r => r.value
  | none => 0

/-- The `factors` bundle of conversion scalars. -/
structure Factors where
  mmbtuconvertor : ℚ
  currencyadjustment : ℚ
  deflation_2022 : ℚ
  deflation_2025 : ℚ
  eth_price : ℚ
  rdsl_price : ℚ
  spk_price : ℚ
deriving DecidableEq

/-- The `cfg` dict fields read by `_calc_value`. -/
structure Config where
  b_price : ℚ
  u_price : ℚ
deriving DecidableEq

/-- `_calc_value`: the price-resolution cascade, translated branch by branch
from the source (`tname_lower = tech_name.lower()` is inlined as
`strLower tech_name`). -/
def _calc_value (tech_name : String) (period_val : Int) (cost_df : List CostRow)
    (cfg : Config) (f : Factors) : ℚ :=
  if strContains (strLower tech_name) "bio" || strContains (strLower tech_name) "wood" then
    ((cfg.b_price * f.mmbtuconvertor) * f.currencyadjustment) * f.deflation_2022
  else if strContains (strLower tech_name) "u_nat" || strContains (strLower tech_name) "u_enr" then
    ((cfg.u_price * f.mmbtuconvertor) * f.currencyadjustment) * f.deflation_2022
  else if strContains (strLower tech_name) "eth" then
    f.eth_price
  else if strContains (strLower tech_name) "rdsl" then
    f.rdsl_price
  else if strContains (strLower tech_name) "spk" then
    f.spk_price
  else if strContains (strLower tech_name) "lng" || strContains (strLower tech_name) "cng"
      || strContains (strLower tech_name) "ngl" then
    ((_safe_base_from_cost cost_df period_val
        (if strContains (strLower tech_name) "lng" || strContains (strLower tech_name) "cng"
         then "T_ng" else "I_prop")
      * f.mmbtuconvertor) * f.currencyadjustment) * f.deflation_2025 * (89 / 100)
  else if strContains (strLower tech_name) "lpg" then
    ((_safe_base_from_cost cost_df period_val
        (if strLower tech_name == "f_r_lpg" then "R_prop" else "T_prop")
      * f.mmbtuconvertor) * f.currencyadjustment) * f.deflation_2025
  else if strContains (strLower tech_name) "e_coal" then
    ((_safe_base_from_cost cost_df period_val "I_coal"
      * f.mmbtuconvertor) * f.currencyadjustment) * f.deflation_2025
  else if strContains (strLower tech_name) "e_gsl" then
    ((_safe_base_from_cost cost_df period_val "T_gsl"
      * f.mmbtuconvertor) * f.currencyadjustment) * f.deflation_2025
  else if strContains (strLower tech_name) "r_oil" then
    ((_safe_base_from_cost cost_df period_val "C_oil"
      * f.mmbtuconvertor) * f.currencyadjustment) * f.deflation_2025
  else if strContains (strLower tech_name) "c_h2" || strContains (strLower tech_name) "r_h2" then
    ((_safe_base_from_cost cost_df period_val "I_h2"
      * f.mmbtuconvertor) * f.currencyadjustment) * f.deflation_2025
  else if strContains (strLower tech_name) "i_pcoke" || strContains (strLower tech_name) "i_coke" then
    ((_safe_base_from_cost cost_df period_val "I_coal"
      * f.mmbtuconvertor) * f.currencyadjustment) * f.deflation_2025
  else if strContains (strLower tech_name) "a_gsl" then
    ((_safe_base_from_cost cost_df period_val "T_gsl"
      * f.mmbtuconvertor) * f.currencyadjustment) * f.deflation_2025
  else if strContains (strLower tech_name) "a_ng" then
    ((_safe_base_from_cost cost_df period_val "I_ng"
      * f.mmbtuconvertor) * f.currencyadjustment) * f.deflation_2025
  else if strContains (strLower tech_name) "a_dsl" then
    ((_safe_base_from_cost cost_df period_val "T_dsl"
      * f.mmbtuconvertor) * f.currencyadjustment) * f.deflation_2025
  else if strContains (strLower tech_name) "a_prop" then
    ((_safe_base_from_cost cost_df period_val "T_prop"
      * f.mmbtuconvertor) * f.currencyadjustment) * f.deflation_2025
  else if strContains (strLower tech_name) "mdo" then
    ((_safe_base_from_cost cost_df period_val "T_dsl"
      * f.mmbtuconvertor) * f.currencyadjustment) * f.deflation_2025 * (9 / 10)
  else
    ((_safe_base_from_cost cost_df period_val tech_name
      * f.mmbtuconvertor) * f.currencyadjustment) * f.deflation_2025

/-- Spec-side enumeration of the resolution categories, in the spec's stated
precedence order (biomass/wood, uranium, ethanol, renewable diesel, spk,
lng/cng/ngl, lpg, e_coal, e_gsl, r_oil, c_h2/r_h2, i_pcoke/i_coke, a_gsl,
a_ng, a_dsl, a_prop, mdo, default). -/
inductive Cat where
  | bio | uranium | eth | rdsl | spk | lngCngNgl | lpg | eCoal | eGsl | rOil
  | h2 | coke | aGsl | aNg | aDsl | aProp | mdo | dft
deriving DecidableEq

/-- Spec-side cascade: the first category, in the spec's precedence order,
whose (case-insensitive) substring test matches the technical name. -/
def category (tech_name : String) : Cat :=
  if strContains (strLower tech_name) "bio" || strContains (strLower tech_name) "wood" then .bio
  else if strContains (strLower tech_name) "u_nat" || strContains (strLower tech_name) "u_enr" then .uranium
  else if strContains (strLower tech_name) "eth" then .eth
  else if strContains (strLower tech_name) "rdsl" then .rdsl
  else if strContains (strLower tech_name) "spk" then .spk
  else if strContains (strLower tech_name) "lng" || strContains (strLower tech_name) "cng"
      || strContains (strLower tech_name) "ngl" then .lngCngNgl
  else if strContains (strLower tech_name) "lpg" then .lpg
  else if strContains (strLower tech_name) "e_coal" then .eCoal
  else if strContains (strLower tech_name) "e_gsl" then .eGsl
  else if strContains (strLower tech_name) "r_oil" then .rOil
  else if strContains (strLower tech_name) "c_h2" || strContains (strLower tech_name) "r_h2" then .h2
  else if strContains (strLower tech_name) "i_pcoke" || strContains (strLower tech_name) "i_coke" then .coke
  else if strContains (strLower tech_name) "a_gsl" then .aGsl
  else if strContains (strLower tech_name) "a_ng" then .aNg
  else if strContains (strLower tech_name) "a_dsl" then .aDsl
  else if strContains (strLower tech_name) "a_prop" then .aProp
  else if strContains (strLower tech_name) "mdo" then .mdo
  else .dft

/-- The Raw Cost Table name a given category looks up for a given technical
name (`none` for the categories that perform no cost-table lookup). -/
def lookupTarget (c : Cat) (tech_name : String) : Option String :=
  match c with
  | .bio => none
  | .uranium => none
  | .eth => none
  | .rdsl => none
  | .spk => none
  | .lngCngNgl =>
      some (if strContains (strLower tech_name) "lng" || strContains (strLower tech_name) "cng"
            then "T_ng" else "I_prop")
  | .lpg => some (if strLower tech_name == "f_r_lpg" then "R_prop" else "T_prop")
  | .eCoal => some "I_coal"
  | .eGsl => some "T_gsl"
  | .rOil => some "C_oil"
  | .h2 => some "I_h2"
  | .coke => some "I_coal"
  | .aGsl => some "T_gsl"
  | .aNg => some "I_ng"
  | .aDsl => some "T_dsl"
  | .aProp => some "T_prop"
  | .mdo => some "T_dsl"
  | .dft => some tech_name

/-- Spec-side value of one resolution rule: the per-category formula from
spec §4.1, applied to a technical name and period. -/
def applyCat (c : Cat) (tech_name : String) (period_val : Int) (cost_df : List CostRow)
    (cfg : Config) (f : Factors) : ℚ :=
  match c with
  | .bio => ((cfg.b_price * f.mmbtuconvertor) * f.currencyadjustment) * f.deflation_2022
  | .uranium => ((cfg.u_price * f.mmbtuconvertor) * f.currencyadjustment) * f.deflation_2022
  | .eth => f.eth_price
  | .rdsl => f.rdsl_price
  | .spk => f.spk_price
  | .lngCngNgl =>
      ((_safe_base_from_cost cost_df period_val
          (if strContains (strLower tech_name) "lng" || strContains (strLower tech_name) "cng"
           then "T_ng" else "I_prop")
        * f.mmbtuconvertor) * f.currencyadjustment) * f.deflation_2025 * (89 / 100)
  | .lpg =>
      ((_safe_base_from_cost cost_df period_val
          (if strLower tech_name == "f_r_lpg" then "R_prop" else "T_prop")
        * f.mmbtuconvertor) * f.currencyadjustment) * f.deflation_2025
  | .eCoal =>
      ((_safe_base_from_cost cost_df period_val "I_coal"
        * f.mmbtuconvertor) * f.currencyadjustment) * f.deflation_2025
  | .eGsl =>
      ((_safe_base_from_cost cost_df period_val "T_gsl"
        * f.mmbtuconvertor) * f.currencyadjustment) * f.deflation_2025
  | .rOil =>
      ((_safe_base_from_cost cost_df period_val "C_oil"
        * f.mmbtuconvertor) * f.currencyadjustment) * f.deflation_2025
  | .h2 =>
      ((_safe_base_from_cost cost_df period_val "I_h2"
        * f.mmbtuconvertor) * f.currencyadjustment) * f.deflation_2025
  | .coke =>
      ((_safe_base_from_cost cost_df period_val "I_coal"
        * f.mmbtuconvertor) * f.currencyadjustment) * f.deflation_2025
  | .aGsl =>
      ((_safe_base_from_cost cost_df period_val "T_gsl"
        * f.mmbtuconvertor) * f.currencyadjustment) * f.deflation_2025
  | .aNg =>
      ((_safe_base_from_cost cost_df period_val "I_ng"
        * f.mmbtuconvertor) * f.currencyadjustment) * f.deflation_2025
  | .aDsl =>
      ((_safe_base_from_cost cost_df period_val "T_dsl"
        * f.mmbtuconvertor) * f.currencyadjustment) * f.deflation_2025
  | .aProp =>
      ((_safe_base_from_cost cost_df period_val "T_prop"
        * f.mmbtuconvertor) * f.currencyadjustment) * f.deflation_2025
  | .mdo =>
      ((_safe_base_from_cost cost_df period_val "T_dsl"
        * f.mmbtuconvertor) * f.currencyadjustment) * f.deflation_2025 * (9 / 10)
  | .dft =>
      ((_safe_base_from_cost cost_df period_val tech_name
        * f.mmbtuconvertor) * f.currencyadjustment) * f.deflation_2025

/-- One output row of the `CostVariable` table (the list appended by
`rows.append([...])` in `build_costvariable`). -/
structure OutRow where
  region : String
  period : Int
  tech : String
  vintage : Int
  value : ℚ
  unit : String
  notes : String
  source : String
  dq_cred : Nat
  dq_geo : Nat
  dq_str : Nat
  dq_tech : Nat
  dq_time : Nat
  data_id : String
deriving DecidableEq

/-- One row of the Fuel Metadata Table `fuel_df` (after the builder has
ensured the `Commodity`, `notes`, `source` columns exist). -/
structure FuelRow where
  commodity : String
  notes : String
  source : String
deriving DecidableEq

/-- The `notes`/`source` annotation: first `fuel_df` row whose `Commodity`
equals the resolved technical name, defaulting to empty strings. -/
def fuelMeta (fuel_df : List FuelRow) (tech_name : String) : String × String :=
  match fuel_df.find? (fun r => r.commodity == tech_name) with
  | some r => (r.notes, r.source)
  | none => ("", "")

/-- The exclusion filter `any(x in tech for x in ['F_IMP', 'ELC', 'OTH'])`:
a case-sensitive substring test on the raw technology identifier. -/
def excludedTech (tech : String) : Bool :=
  strContains tech "F_IMP" || strContains tech "ELC" || strContains tech "OTH"

/-- The loop body of `build_costvariable` for one (province, vintage,
period, technology) combination: look up the mapped display name (a missing
key raises, i.e. `none`), price it, annotate it, and look up the region id
(a missing key raises). -/
def mkRow (mapping dict_id : List (String × String)) (cost_df : List CostRow)
    (fuel_df : List FuelRow) (cfg : Config) (f : Factors)
    (pro : String) (vint per : Int) (tech : String) : Option OutRow :=
  match List.lookup tech mapping, List.lookup pro dict_id with
  | some out, some id =>
      some { region := pro, period := per, tech := tech, vintage := vint,
             value := _calc_value (strTrim out) per cost_df cfg f,
             unit := "2020 M$/PJ",
             notes := (fuelMeta fuel_df (strTrim out)).1,
             source := (fuelMeta fuel_df (strTrim out)).2,
             dq_cred := 2, dq_geo := 3, dq_str := 2, dq_tech := 1, dq_time := 1,
             data_id := id }
  | _, _ => none

/-- The enumeration order of `build_costvariable`'s nested loops, with its
three `continue` filters: skip region `CAN`, skip `per < vint`, skip
excluded technologies.  Tuples are `(province, vintage, period, tech)`. -/
def comboList (province_list : List String) (periods : List Int)
    (tech_list : List String) : List (String × Int × Int × String) :=
  (province_list.filter (fun pro => pro != "CAN")).flatMap (fun pro =>
    periods.flatMap (fun vint =>
      (periods.filter (fun per => !(decide (per < vint)))).flatMap (fun per =>
        (tech_list.filter (fun t => !(excludedTech t))).map (fun tech =>
          (pro, vint, per, tech)))))

/-- The `rows` list accumulated by `build_costvariable`; `none` models the
`KeyError` raised on a missing mapping or region-id entry. -/
def buildRows (province_list : List String) (periods : List Int)
    (tech_list : List String) (mapping dict_id : List (String × String))
    (cost_df : List CostRow) (fuel_df : List FuelRow) (cfg : Config)
    (f : Factors) : Option (List OutRow) :=
  (comboList province_list periods tech_list).mapM (fun c =>
    mkRow mapping dict_id cost_df fuel_df cfg f c.1 c.2.1 c.2.2.1 c.2.2.2)

/-- `build_costvariable`: the output-tables dict `comb_dict` is modelled as
a function from table name to row list; on success the `CostVariable`
member alone is extended (the `if rows:` guard of the source is kept). -/
def build_costvariable (comb_dict : String → List OutRow)
    (province_list : List String) (periods : List Int) (tech_list : List String)
    (mapping dict_id : List (String × String)) (cost_df : List CostRow)
    (fuel_df : List FuelRow) (cfg : Config) (f : Factors) :
    Option (String → List OutRow) :=
  match buildRows province_list periods tech_list mapping dict_id cost_df fuel_df cfg f with
  | none => none
  | some rows =>
      some (if rows.isEmpty then comb_dict
            else fun k => if k == "CostVariable" then comb_dict k ++ rows else comb_dict k)

/-- The identifying key `(region, period, tech, vintage)` of an output row. -/
def keyOf (r : OutRow) : String × Int × String × Int := (r.region, r.period, r.tech, r.vintage)

/-!  ### The resolver agrees with the spec's cascade  -/

/-- The resolver equals the spec-side cascade: first matching category, then
that category's formula.  Shared by the per-category claims below. -/
theorem calcValue_eq_applyCat (tn : String) (p : Int) (df : List CostRow)
    (cfg : Config) (f : Factors) :
    _calc_value tn p df cfg f = applyCat (category tn) tn p df cfg f := by
  unfold _calc_value category
  by_cases h1 : (strContains (strLower tn) "bio" || strContains (strLower tn) "wood") = true
  · simp only [if_pos h1]
    rfl
  simp only [if_neg h1]
  by_cases h2 : (strContains (strLower tn) "u_nat" || strContains (strLower tn) "u_enr") = true
  · simp only [if_pos h2]
    rfl
  simp only [if_neg h2]
  by_cases h3 : strContains (strLower tn) "eth" = true
  · simp only [if_pos h3]
    rfl
  simp only [if_neg h3]
  by_cases h4 : strContains (strLower tn) "rdsl" = true
  · simp only [if_pos h4]
    rfl
  simp only [if_neg h4]
  by_cases h5 : strContains (strLower tn) "spk" = true
  · simp only [if_pos h5]
    rfl
  simp only [if_neg h5]
  by_cases h6 : (strContains (strLower tn) "lng" || strContains (strLower tn) "cng"
      || strContains (strLower tn) "ngl") = true
  · simp only [if_pos h6]
    rfl
  simp only [if_neg h6]
  by_cases h7 : strContains (strLower tn) "lpg" = true
  · simp only [if_pos h7]
    rfl
  simp only [if_neg h7]
  by_cases h8 : strContains (strLower tn) "e_coal" = true
  · simp only [if_pos h8]
    rfl
  simp only [if_neg h8]
  by_cases h9 : strContains (strLower tn) "e_gsl" = true
  · simp only [if_pos h9]
    rfl
  simp only [if_neg h9]
  by_cases h10 : strContains (strLower tn) "r_oil" = true
  · simp only [if_pos h10]
    rfl
  simp only [if_neg h10]
  by_cases h11 : (strContains (strLower tn) "c_h2" || strContains (strLower tn) "r_h2") = true
  · simp only [if_pos h11]
    rfl
  simp only [if_neg h11]
  by_cases h12 : (strContains (strLower tn) "i_pcoke" || strContains (strLower tn) "i_coke") = true
  · simp only [if_pos h12]
    rfl
  simp only [if_neg h12]
  by_cases h13 : strContains (strLower tn) "a_gsl" = true
  · simp only [if_pos h13]
    rfl
  simp only [if_neg h13]
  by_cases h14 : strContains (strLower tn) "a_ng" = true
  · simp only [if_pos h14]
    rfl
  simp only [if_neg h14]
  by_cases h15 : strContains (strLower tn) "a_dsl" = true
  · simp only [if_pos h15]
    rfl
  simp only [if_neg h15]
  by_cases h16 : strContains (strLower tn) "a_prop" = true
  · simp only [if_pos h16]
    rfl
  simp only [if_neg h16]
  by_cases h17 : strContains (strLower tn) "mdo" = true
  · simp only [if_pos h17]
    rfl
  simp only [if_neg h17]
  rfl

/-- C1: the resolver evaluates the category rules as an ordered,
first-match-wins cascade in the spec's exact precedence order (the equation
with `applyCat (category tn)`, where `category` is that ordered cascade);
in particular a name containing both `bio` and `lng` resolves via the
biomass rule. -/
theorem resolver_is_ordered_cascade (tn : String) (p : Int) (df : List CostRow)
    (cfg : Config) (f : Factors) :
    _calc_value tn p df cfg f = applyCat (category tn) tn p df cfg f ∧
    (strContains (strLower tn) "bio" = true → strContains (strLower tn) "lng" = true →
      category tn = Cat.bio) := by
  refine ⟨calcValue_eq_applyCat tn p df cfg f, fun h1 _ => ?_⟩
  simp [category, h1]

/-- C1 witness: at the name `"F_bio_LNG"` (which contains both `bio` and
`lng`) the cascade equation holds and the biomass rule wins. -/
theorem resolver_is_ordered_cascade_witness :
    (_calc_value "F_bio_LNG" 2020 [] ⟨1, 1⟩ ⟨1, 1, 1, 1, 1, 1, 1⟩ =
      applyCat (category "F_bio_LNG") "F_bio_LNG" 2020 [] ⟨1, 1⟩ ⟨1, 1, 1, 1, 1, 1, 1⟩) ∧
    category "F_bio_LNG" = Cat.bio :=
  ⟨(resolver_is_ordered_cascade "F_bio_LNG" 2020 [] ⟨1, 1⟩ ⟨1, 1, 1, 1, 1, 1, 1⟩).1,
   (resolver_is_ordered_cascade "F_bio_LNG" 2020 [] ⟨1, 1⟩ ⟨1, 1, 1, 1, 1, 1, 1⟩).2
     (by decide) (by decide)⟩

/-- C4: a name matching none of the category rules is looked up directly in
the Raw Cost Table at the given period, and the result is
`((base * btu) * currency) * deflator_2025` with no extra multiplier. -/
theorem default_rule_direct_lookup (tn : String) (p : Int) (df : List CostRow)
    (cfg : Config) (f : Factors) (h : category tn = Cat.dft) :
    _calc_value tn p df cfg f =
      ((_safe_base_from_cost df p tn * f.mmbtuconvertor) * f.currencyadjustment)
        * f.deflation_2025 := by
  rw [calcValue_eq_applyCat, h]
  rfl

/-- C4 witness: `"T_dsl"` with raw value `10.0` at period `2030` and factors
`btu = 1.1`, `currency = 1.05`, `deflator_2025 = 0.95` gives
`10.9725 = 4389/400`. -/
theorem default_rule_direct_lookup_witness :
    _calc_value "T_dsl" 2030 [⟨2030, "T_dsl", 10⟩] ⟨0, 0⟩
        ⟨11/10, 21/20, 1, 19/20, 0, 0, 0⟩ = 4389 / 400 :=
  (default_rule_direct_lookup "T_dsl" 2030 [⟨2030, "T_dsl", 10⟩] ⟨0, 0⟩
      ⟨11/10, 21/20, 1, 19/20, 0, 0, 0⟩ (by decide)).trans
    (by norm_num [_safe_base_from_cost, List.find?])

/-- C5: under the LPG rule the proxy is `R_prop` exactly when the lowered
name equals `"f_r_lpg"`, else `T_prop`, with the BTU/currency/2025-deflator
chain and no extra multiplier. -/
theorem lpg_rule_proxy_selection (tn : String) (p : Int) (df : List CostRow)
    (cfg : Config) (f : Factors) (h : category tn = Cat.lpg) :
    _calc_value tn p df cfg f =
      ((_safe_base_from_cost df p (if strLower tn == "f_r_lpg" then "R_prop" else "T_prop")
        * f.mmbtuconvertor) * f.currencyadjustment) * f.deflation_2025 ∧
    ((if strLower tn == "f_r_lpg" then "R_prop" else "T_prop") = "R_prop" ↔
      strLower tn = "f_r_lpg") := by
  constructor
  · rw [calcValue_eq_applyCat, h]
    rfl
  · by_cases hc : strLower tn = "f_r_lpg" <;> simp [hc]

/-- C5 witness: `"F_R_LPG"` is in the LPG category, its proxy resolves to
`R_prop`, and with `R_prop` raw value `3` and factors `1.1`, `1.05`,
`0.95` the price is `13167/4000`. -/
theorem lpg_rule_proxy_selection_witness :
    (_calc_value "F_R_LPG" 2030 [⟨2030, "R_prop", 3⟩] ⟨0, 0⟩
        ⟨11/10, 21/20, 1, 19/20, 0, 0, 0⟩ = 13167 / 4000) ∧
    ((if strLower "F_R_LPG" == "f_r_lpg" then "R_prop" else "T_prop") = "R_prop") := by
  have h := lpg_rule_proxy_selection "F_R_LPG" 2030 [⟨2030, "R_prop", 3⟩] ⟨0, 0⟩
      ⟨11/10, 21/20, 1, 19/20, 0, 0, 0⟩ (by decide)
  refine ⟨h.1.trans ?_, h.2.mpr (by decide)⟩
  simp only [show (strLower "F_R_LPG" == "f_r_lpg") = true from rfl, if_true,
    show _safe_base_from_cost [⟨2030, "R_prop", 3⟩] 2030 "R_prop" = 3 from rfl]
  norm_num

/-- C6: a name containing `bio` or `wood` is priced from `config.b_price`,
and a name containing `u_nat` or `u_enr` (and not the higher-priority
biomass tokens) from `config.u_price`, both via the BTU factor, the
currency adjustment and the 2022 deflator; neither formula mentions the
Raw Cost Table, so no lookup is performed. -/
theorem config_fuels_bio_uranium (tn : String) (p : Int) (df : List CostRow)
    (cfg : Config) (f : Factors) :
    ((strContains (strLower tn) "bio" || strContains (strLower tn) "wood") = true →
      _calc_value tn p df cfg f =
        ((cfg.b_price * f.mmbtuconvertor) * f.currencyadjustment) * f.deflation_2022) ∧
    ((strContains (strLower tn) "bio" || strContains (strLower tn) "wood") = false →
      (strContains (strLower tn) "u_nat" || strContains (strLower tn) "u_enr") = true →
      _calc_value tn p df cfg f =
        ((cfg.u_price * f.mmbtuconvertor) * f.currencyadjustment) * f.deflation_2022) := by
  constructor
  · intro hb
    simp [_calc_value, hb]
  · intro hb hu
    simp [_calc_value, hb, hu]

/-- C6 witness: `"U_ENR"` with `u_price = 5.0`, `btu = 1.1`,
`currency = 1.05`, `deflator_2022 = 0.9` gives `5.1975 = 2079/400`. -/
theorem config_fuels_bio_uranium_witness :
    _calc_value "U_ENR" 2020 [] ⟨0, 5⟩ ⟨11/10, 21/20, 9/10, 0, 0, 0, 0⟩ = 2079 / 400 :=
  ((config_fuels_bio_uranium "U_ENR" 2020 [] ⟨0, 5⟩ ⟨11/10, 21/20, 9/10, 0, 0, 0, 0⟩).2
      (by decide) (by decide)).trans (by norm_num)

/-!  ### Missing lookups and non-negativity  -/

/-- C2 counterexample: the claim quantifies over every name, but a name in
a no-lookup category whose `(period, name)` pair is absent from the Raw
Cost Table does not resolve to `0.0`: `"eth"` is absent from an empty
table, yet with `eth_price = 7` the resolver returns `7 ≠ 0`. -/
theorem missing_name_nonzero_counterexample :
    (([] : List CostRow).find? (fun r => r.period == (2020 : Int) && r.techName == "eth")
        = none) ∧
    _calc_value "eth" 2020 [] ⟨0, 0⟩ ⟨0, 0, 0, 0, 7, 0, 0⟩ ≠ 0 := by
  refine ⟨rfl, ?_⟩
  rw [show _calc_value "eth" 2020 [] ⟨0, 0⟩ ⟨0, 0, 0, 0, 7, 0, 0⟩ = 7 from rfl]
  norm_num

/-- C2 (amended): whenever the rule selected for a name performs a Raw Cost
Table lookup (`lookupTarget`) and that `(period, target)` pair has no row,
the lookup returns `0.0` instead of raising and the zero base propagates
through the multiplicative chain, so the resolver's final result is `0.0`;
the lookup itself is a total function. -/
theorem missing_lookup_resolves_to_zero (tn t : String) (p : Int) (df : List CostRow)
    (cfg : Config) (f : Factors)
    (ht : lookupTarget (category tn) tn = some t)
    (hmiss : df.find? (fun r => r.period == p && r.techName == t) = none) :
    _safe_base_from_cost df p t = 0 ∧ _calc_value tn p df cfg f = 0 := by
  have hbase : _safe_base_from_cost df p t = 0 := by
    unfold _safe_base_from_cost
    rw [hmiss]
  refine ⟨hbase, ?_⟩
  rw [calcValue_eq_applyCat]
  cases hc : category tn <;> rw [hc] at ht <;>
      simp only [lookupTarget, Option.some.injEq] at ht <;>
      first
        | exact Option.noConfusion ht
        | (subst ht
           simp only [applyCat]
           rw [hbase]
           ring)

/-- C2 (amended) witness: `"T_gsl"` is in the default category, and with an
empty Raw Cost Table its lookup and final price are both `0`. -/
theorem missing_lookup_resolves_to_zero_witness :
    _safe_base_from_cost [] 2020 "T_gsl" = 0 ∧
    _calc_value "T_gsl" 2020 [] ⟨1, 1⟩ ⟨1, 1, 1, 1, 1, 1, 1⟩ = 0 :=
  missing_lookup_resolves_to_zero "T_gsl" "T_gsl" 2020 [] ⟨1, 1⟩ ⟨1, 1, 1, 1, 1, 1, 1⟩
    (by decide) rfl

/-- C9: when every cost-table value, configuration price, fixed external
price and conversion factor is non-negative, the resolver's result is
non-negative (and, the model being exact rationals, finite). -/
theorem calc_value_nonneg (tn : String) (p : Int) (df : List CostRow)
    (cfg : Config) (f : Factors)
    (hdf : ∀ r ∈ df, 0 ≤ r.value)
    (hb : 0 ≤ cfg.b_price) (hu : 0 ≤ cfg.u_price)
    (hm : 0 ≤ f.mmbtuconvertor) (hcu : 0 ≤ f.currencyadjustment)
    (h22 : 0 ≤ f.deflation_2022) (h25 : 0 ≤ f.deflation_2025)
    (he : 0 ≤ f.eth_price) (hr : 0 ≤ f.rdsl_price) (hs : 0 ≤ f.spk_price) :
    0 ≤ _calc_value tn p df cfg f := by
  have hsafe : ∀ n : String, 0 ≤ _safe_base_from_cost df p n := by
    intro n
    unfold _safe_base_from_cost
    cases hf : df.find? (fun r => r.period == p && r.techName == n) with
    | none => exact le_refl 0
    | some r => exact hdf r (List.mem_of_find?_eq_some hf)
  unfold _calc_value
  by_cases h1 : (strContains (strLower tn) "bio" || strContains (strLower tn) "wood") = true
  · simp only [if_pos h1]
    (repeat' apply mul_nonneg) <;>
      first | assumption | exact hsafe _ | exact inv_nonneg.mpr (by norm_num) | norm_num
  simp only [if_neg h1]
  by_cases h2 : (strContains (strLower tn) "u_nat" || strContains (strLower tn) "u_enr") = true
  · simp only [if_pos h2]
    (repeat' apply mul_nonneg) <;>
      first | assumption | exact hsafe _ | exact inv_nonneg.mpr (by norm_num) | norm_num
  simp only [if_neg h2]
  by_cases h3 : strContains (strLower tn) "eth" = true
  · simp only [if_pos h3]
    (repeat' apply mul_nonneg) <;>
      first | assumption | exact hsafe _ | exact inv_nonneg.mpr (by norm_num) | norm_num
  simp only [if_neg h3]
  by_cases h4 : strContains (strLower tn) "rdsl" = true
  · simp only [if_pos h4]
    (repeat' apply mul_nonneg) <;>
      first | assumption | exact hsafe _ | exact inv_nonneg.mpr (by norm_num) | norm_num
  simp only [if_neg h4]
  by_cases h5 : strContains (strLower tn) "spk" = true
  · simp only [if_pos h5]
    (repeat' apply mul_nonneg) <;>
      first | assumption | exact hsafe _ | exact inv_nonneg.mpr (by norm_num) | norm_num
  simp only [if_neg h5]
  by_cases h6 : (strContains (strLower tn) "lng" || strContains (strLower tn) "cng"
      || strContains (strLower tn) "ngl") = true
  · simp only [if_pos h6]
    (repeat' apply mul_nonneg) <;>
      first | assumption | exact hsafe _ | exact inv_nonneg.mpr (by norm_num) | norm_num
  simp only [if_neg h6]
  by_cases h7 : strContains (strLower tn) "lpg" = true
  · simp only [if_pos h7]
    (repeat' apply mul_nonneg) <;>
      first | assumption | exact hsafe _ | exact inv_nonneg.mpr (by norm_num) | norm_num
  simp only [if_neg h7]
  by_cases h8 : strContains (strLower tn) "e_coal" = true
  · simp only [if_pos h8]
    (repeat' apply mul_nonneg) <;>
      first | assumption | exact hsafe _ | exact inv_nonneg.mpr (by norm_num) | norm_num
  simp only [if_neg h8]
  by_cases h9 : strContains (strLower tn) "e_gsl" = true
  · simp only [if_pos h9]
    (repeat' apply mul_nonneg) <;>
      first | assumption | exact hsafe _ | exact inv_nonneg.mpr (by norm_num) | norm_num
  simp only [if_neg h9]
  by_cases h10 : strContains (strLower tn) "r_oil" = true
  · simp only [if_pos h10]
    (repeat' apply mul_nonneg) <;>
      first | assumption | exact hsafe _ | exact inv_nonneg.mpr (by norm_num) | norm_num
  simp only [if_neg h10]
  by_cases h11 : (strContains (strLower tn) "c_h2" || strContains (strLower tn) "r_h2") = true
  · simp only [if_pos h11]
    (repeat' apply mul_nonneg) <;>
      first | assumption | exact hsafe _ | exact inv_nonneg.mpr (by norm_num) | norm_num
  simp only [if_neg h11]
  by_cases h12 : (strContains (strLower tn) "i_pcoke" || strContains (strLower tn) "i_coke") = true
  · simp only [if_pos h12]
    (repeat' apply mul_nonneg) <;>
      first | assumption | exact hsafe _ | exact inv_nonneg.mpr (by norm_num) | norm_num
  simp only [if_neg h12]
  by_cases h13 : strContains (strLower tn) "a_gsl" = true
  · simp only [if_pos h13]
    (repeat' apply mul_nonneg) <;>
      first | assumption | exact hsafe _ | exact inv_nonneg.mpr (by norm_num) | norm_num
  simp only [if_neg h13]
  by_cases h14 : strContains (strLower tn) "a_ng" = true
  · simp only [if_pos h14]
    (repeat' apply mul_nonneg) <;>
      first | assumption | exact hsafe _ | exact inv_nonneg.mpr (by norm_num) | norm_num
  simp only [if_neg h14]
  by_cases h15 : strContains (strLower tn) "a_dsl" = true
  · simp only [if_pos h15]
    (repeat' apply mul_nonneg) <;>
      first | assumption | exact hsafe _ | exact inv_nonneg.mpr (by norm_num) | norm_num
  simp only [if_neg h15]
  by_cases h16 : strContains (strLower tn) "a_prop" = true
  · simp only [if_pos h16]
    (repeat' apply mul_nonneg) <;>
      first | assumption | exact hsafe _ | exact inv_nonneg.mpr (by norm_num) | norm_num
  simp only [if_neg h16]
  by_cases h17 : strContains (strLower tn) "mdo" = true
  · simp only [if_pos h17]
    (repeat' apply mul_nonneg) <;>
      first | assumption | exact hsafe _ | exact inv_nonneg.mpr (by norm_num) | norm_num
  simp only [if_neg h17]
  (repeat' apply mul_nonneg) <;>
      first | assumption | exact hsafe _ | exact inv_nonneg.mpr (by norm_num) | norm_num

/-- C9 witness: a concrete all-non-negative input gives a non-negative
price. -/
theorem calc_value_nonneg_witness :
    0 ≤ _calc_value "T_dsl" 2030 [⟨2030, "T_dsl", 10⟩] ⟨1, 1⟩ ⟨1, 1, 1, 1, 1, 1, 1⟩ :=
  calc_value_nonneg "T_dsl" 2030 [⟨2030, "T_dsl", 10⟩] ⟨1, 1⟩ ⟨1, 1, 1, 1, 1, 1, 1⟩
    (by norm_num) (by norm_num) (by norm_num) (by norm_num) (by norm_num)
    (by norm_num) (by norm_num) (by norm_num) (by norm_num) (by norm_num)

/-!  ### Builder enumeration facts  -/

/-- A successful `Option`-monadic `mapM` relates inputs and outputs
pointwise. -/
theorem mapM_option_forall₂ {α β : Type} (f : α → Option β) :
    ∀ (l : List α) (rs : List β), l.mapM f = some rs →
      List.Forall₂ (fun a b => f a = some b) l rs := by
  intro l
  induction l with
  | nil =>
      intro rs h
      rw [List.mapM_nil] at h
      cases h
      exact List.Forall₂.nil
  | cons a l ih =>
      intro rs h
      rw [List.mapM_cons] at h
      cases hfa : f a with
      | none => rw [hfa] at h; cases h
      | some b =>
          rw [hfa] at h
          cases hml : l.mapM f with
          | none => rw [hml] at h; cases h
          | some bs =>
              rw [hml] at h
              cases h
              exact List.Forall₂.cons hfa (ih bs hml)

/-- `Option`-monadic `mapM` fails as soon as one element fails. -/
theorem mapM_option_eq_none {α β : Type} (f : α → Option β) :
    ∀ (l : List α) (a : α), a ∈ l → f a = none → l.mapM f = none := by
  intro l
  induction l with
  | nil => intro a ha; cases ha
  | cons x l ih =>
      intro a ha hfa
      rw [List.mapM_cons]
      rcases List.mem_cons.mp ha with rfl | hmem
      · rw [hfa]
        rfl
      · cases hfx : f x with
        | none => rfl
        | some b => rw [ih a hmem hfa]; rfl

/-- A row produced by `mkRow` carries exactly the combination it was built
from. -/
theorem mkRow_some_fields (mapping dict_id : List (String × String))
    (cost_df : List CostRow) (fuel_df : List FuelRow) (cfg : Config) (f : Factors)
    (pro : String) (vint per : Int) (tech : String) (r : OutRow)
    (h : mkRow mapping dict_id cost_df fuel_df cfg f pro vint per tech = some r) :
    r.region = pro ∧ r.period = per ∧ r.tech = tech ∧ r.vintage = vint := by
  cases h1 : List.lookup tech mapping with
  | none => simp [mkRow, h1] at h
  | some out =>
      cases h2 : List.lookup pro dict_id with
      | none => simp [mkRow, h1, h2] at h
      | some id =>
          simp only [mkRow, h1, h2, Option.some.injEq] at h
          subst h
          exact ⟨rfl, rfl, rfl, rfl⟩

/-- The key order of rows produced from a combination list. -/
theorem keys_of_forall₂ (mapping dict_id : List (String × String))
    (cost_df : List CostRow) (fuel_df : List FuelRow) (cfg : Config) (f : Factors)
    {l : List (String × Int × Int × String)} {rs : List OutRow}
    (h : List.Forall₂ (fun c r =>
        mkRow mapping dict_id cost_df fuel_df cfg f c.1 c.2.1 c.2.2.1 c.2.2.2 = some r) l rs) :
    rs.map keyOf = l.map (fun c => (c.1, c.2.2.1, c.2.2.2, c.2.1)) := by
  induction h with
  | nil => rfl
  | @cons c r ltl rtl ha _ ih =>
      obtain ⟨h1, h2, h3, h4⟩ :=
        mkRow_some_fields mapping dict_id cost_df fuel_df cfg f c.1 c.2.1 c.2.2.1 c.2.2.2 r ha
      simp only [List.map_cons, keyOf, h1, h2, h3, h4, ih]

/-- Membership of a combination in the builder's enumeration implies the
three loop filters. -/
theorem props_of_comboList_mem {ps : List String} {pers : List Int}
    {techs : List String} {pro : String} {vint per : Int} {tech : String}
    (h : (pro, vint, per, tech) ∈ comboList ps pers techs) :
    pro ∈ ps ∧ pro ≠ "CAN" ∧ vint ∈ pers ∧ per ∈ pers ∧ ¬(per < vint)
      ∧ tech ∈ techs ∧ excludedTech tech = false := by
  simp only [comboList, List.mem_flatMap, List.mem_map, List.mem_filter] at h
  obtain ⟨pro', ⟨hpro, hpne⟩, vint', hvint, per', ⟨hper, hple⟩, tech', ⟨htech, hexc⟩, heq⟩ := h
  injection heq with e1 e'
  injection e' with e2 e''
  injection e'' with e3 e4
  subst e1
  subst e2
  subst e3
  subst e4
  refine ⟨hpro, ?_, hvint, hper, ?_, htech, ?_⟩
  · simpa using hpne
  · simpa using hple
  · simpa using hexc

/-- Conversely, every combination passing the three filters is enumerated. -/
theorem comboList_mem_of {ps : List String} {pers : List Int} {techs : List String}
    {pro : String} {vint per : Int} {tech : String}
    (hpro : pro ∈ ps) (hne : pro ≠ "CAN") (hv : vint ∈ pers) (hp : per ∈ pers)
    (hle : ¬(per < vint)) (ht : tech ∈ techs) (hexc : excludedTech tech = false) :
    (pro, vint, per, tech) ∈ comboList ps pers techs := by
  simp only [comboList, List.mem_flatMap, List.mem_map, List.mem_filter]
  refine ⟨pro, ⟨hpro, ?_⟩, vint, hv, per, ⟨hp, ?_⟩, tech, ⟨ht, ?_⟩, rfl⟩
  · simpa using hne
  · simpa using hle
  · simpa using hexc

/-- `flatMap` preserves `Nodup` when a key function recovers the index of
each block. -/
theorem nodup_flatMap_key {α β : Type} {l : List α} {f : α → List β} (key : β → α)
    (hl : l.Nodup) (h1 : ∀ a ∈ l, (f a).Nodup)
    (hk : ∀ a ∈ l, ∀ b ∈ f a, key b = a) :
    (l.flatMap f).Nodup := by
  rw [List.nodup_flatMap]
  refine ⟨h1, ?_⟩
  refine List.Pairwise.imp_of_mem ?_ hl
  intro a b ha hb hne
  show List.Disjoint (f a) (f b)
  intro x hxa hxb
  exact hne ((hk a ha x hxa).symm.trans (hk b hb x hxb))

/-- The builder's key tuples `(region, period, tech, vintage)` are distinct
across the whole enumeration, provided the input lists are. -/
theorem comboKeys_nodup {ps : List String} {pers : List Int} {techs : List String}
    (hps : ps.Nodup) (hpers : pers.Nodup) (htechs : techs.Nodup) :
    ((comboList ps pers techs).map (fun c => (c.1, c.2.2.1, c.2.2.2, c.2.1))).Nodup := by
  unfold comboList
  rw [List.map_flatMap]
  apply nodup_flatMap_key (fun k => k.1) (hps.filter _)
  · intro pro _
    rw [List.map_flatMap]
    apply nodup_flatMap_key (fun k => k.2.2.2) hpers
    · intro vint _
      rw [List.map_flatMap]
      apply nodup_flatMap_key (fun k => k.2.1) (hpers.filter _)
      · intro per _
        rw [List.map_map]
        apply List.Nodup.map ?_ (htechs.filter _)
        intro t1 t2 he
        simpa using he
      · intro per _ k hk
        simp only [List.map_map, List.mem_map] at hk
        obtain ⟨t, _, rfl⟩ := hk
        rfl
    · intro vint _ k hk
      simp only [List.map_flatMap, List.mem_flatMap, List.map_map, List.mem_map] at hk
      obtain ⟨per, _, t, _, rfl⟩ := hk
      rfl
  · intro pro _ k hk
    simp only [List.map_flatMap, List.mem_flatMap, List.map_map, List.mem_map] at hk
    obtain ⟨vint, _, per, _, t, _, rfl⟩ := hk
    rfl

/-- In a list whose keys are distinct, a present key is hit by exactly one
element. -/
theorem length_filter_key_eq_one {α β : Type} [DecidableEq β] (k : β) (key : α → β)
    (l : List α) (hnd : (l.map key).Nodup) (hmem : k ∈ l.map key) :
    (l.filter (fun a => decide (key a = k))).length = 1 := by
  induction l with
  | nil => simp at hmem
  | cons a l ih =>
      rw [List.map_cons, List.nodup_cons] at hnd
      rw [List.map_cons] at hmem
      rw [List.filter_cons]
      by_cases hk : key a = k
      · rw [if_pos (by simpa using hk)]
        have hnot : k ∉ l.map key := hk ▸ hnd.1
        have hfil : l.filter (fun b => decide (key b = k)) = [] := by
          rw [List.filter_eq_nil_iff]
          intro b hb
          simp only [decide_eq_true_eq]
          intro hbk
          exact hnot (hbk ▸ List.mem_map_of_mem key hb)
        rw [hfil]
        rfl
      · rw [if_neg (by simpa using hk)]
        rcases List.mem_cons.mp hmem with heq | hmem'
        · exact absurd heq.symm hk
        · exact ih hnd.2 hmem'

/-!  ### Builder claims  -/

/-- C3: a successful build pass emits no row with region `CAN` or
`period < vintage`, its `(region, period, tech, vintage)` keys are
pairwise distinct, and each combination passing the three filters is hit
by exactly one row (input lists taken without duplicates, as enumerating
"each combination" presumes). -/
theorem build_rows_exactly_once
    (ps : List String) (pers : List Int) (techs : List String)
    (mapping dict_id : List (String × String)) (cost_df : List CostRow)
    (fuel_df : List FuelRow) (cfg : Config) (f : Factors) (rows : List OutRow)
    (hps : ps.Nodup) (hpers : pers.Nodup) (htechs : techs.Nodup)
    (hok : buildRows ps pers techs mapping dict_id cost_df fuel_df cfg f = some rows) :
    (∀ r ∈ rows, r.region ≠ "CAN" ∧ r.vintage ≤ r.period) ∧
    (rows.map keyOf).Nodup ∧
    (∀ pro vint per tech, pro ∈ ps → pro ≠ "CAN" → vint ∈ pers → per ∈ pers →
      vint ≤ per → tech ∈ techs → excludedTech tech = false →
      (rows.filter (fun r => decide (keyOf r = (pro, per, tech, vint)))).length = 1) := by
  unfold buildRows at hok
  have hf2 := mapM_option_forall₂ _ _ _ hok
  have hkeys := keys_of_forall₂ mapping dict_id cost_df fuel_df cfg f hf2
  have hnd : (rows.map keyOf).Nodup := by
    rw [hkeys]
    exact comboKeys_nodup hps hpers htechs
  refine ⟨?_, hnd, ?_⟩
  · intro r hr
    have hmem : keyOf r ∈ rows.map keyOf := List.mem_map_of_mem keyOf hr
    rw [hkeys] at hmem
    simp only [List.mem_map] at hmem
    obtain ⟨c, hc, hkey⟩ := hmem
    obtain ⟨pro, vint, per, tech⟩ := c
    have hprops := props_of_comboList_mem hc
    rw [show keyOf r = (r.region, r.period, r.tech, r.vintage) from rfl] at hkey
    injection hkey with e1 e'
    injection e' with e2 e''
    injection e'' with e3 e4
    constructor
    · rw [← e1]
      exact hprops.2.1
    · rw [← e4, ← e2]
      exact Int.not_lt.mp hprops.2.2.2.2.1
  · intro pro vint per tech hpro hne hv hp hle ht hexc
    have hc : (pro, vint, per, tech) ∈ comboList ps pers techs :=
      comboList_mem_of hpro hne hv hp (Int.not_lt.mpr hle) ht hexc
    have hkmem : ((pro, per, tech, vint) : String × Int × String × Int) ∈ rows.map keyOf := by
      rw [hkeys]
      exact List.mem_map_of_mem _ hc
    exact length_filter_key_eq_one (pro, per, tech, vint) keyOf rows hnd hkmem

/-- Concrete build inputs for the enumeration witnesses. -/
def psW : List String := ["NS"]

def persW : List Int := [2020, 2025]

def techsW : List String := ["T1"]

def mappingW : List (String × String) := [("T1", "T_dsl")]

def dictIdW : List (String × String) := [("NS", "ns1")]

def cfgW : Config := ⟨0, 0⟩

def facW : Factors := ⟨1, 1, 1, 1, 1, 1, 1⟩

/-- The row the concrete build produces for a given vintage and period. -/
def rowW (vint per : Int) : OutRow :=
  { region := "NS", period := per, tech := "T1", vintage := vint,
    value := _calc_value (strTrim "T_dsl") per [] cfgW facW,
    unit := "2020 M$/PJ", notes := "", source := "",
    dq_cred := 2, dq_geo := 3, dq_str := 2, dq_tech := 1, dq_time := 1,
    data_id := "ns1" }

/-- The three rows of the concrete build (vintage 2020 twice, 2025 once). -/
def rowsW : List OutRow := [rowW 2020 2020, rowW 2020 2025, rowW 2025 2025]

/-- C3 witness: the concrete two-period, one-region, one-technology build
satisfies all three enumeration invariants. -/
theorem build_rows_exactly_once_witness :
    (∀ r ∈ rowsW, r.region ≠ "CAN" ∧ r.vintage ≤ r.period) ∧
    (rowsW.map keyOf).Nodup ∧
    (∀ pro vint per tech, pro ∈ psW → pro ≠ "CAN" → vint ∈ persW → per ∈ persW →
      vint ≤ per → tech ∈ techsW → excludedTech tech = false →
      (rowsW.filter (fun r => decide (keyOf r = (pro, per, tech, vint)))).length = 1) :=
  build_rows_exactly_once psW persW techsW mappingW dictIdW [] [] cfgW facW rowsW
    (by decide) (by decide) (by decide) rfl

/-- C7: a non-excluded technology missing from the Name Mapping, or a
reachable non-`CAN` region missing from the region-id map, makes the build
pass abort (return `none`, modelling the Python `KeyError`) instead of
emitting degraded rows — provided the enumeration actually reaches that
combination (a non-`CAN` region, a valid vintage/period pair, and a
non-excluded technology exist). -/
theorem build_aborts_on_missing_key
    (comb : String → List OutRow) (ps : List String) (pers : List Int)
    (techs : List String) (mapping dict_id : List (String × String))
    (cost_df : List CostRow) (fuel_df : List FuelRow) (cfg : Config) (f : Factors) :
    (∀ tech ∈ techs, excludedTech tech = false → List.lookup tech mapping = none →
      (∃ pro ∈ ps, pro ≠ "CAN") → (∃ v ∈ pers, ∃ p ∈ pers, ¬(p < v)) →
      build_costvariable comb ps pers techs mapping dict_id cost_df fuel_df cfg f = none) ∧
    (∀ pro ∈ ps, pro ≠ "CAN" → List.lookup pro dict_id = none →
      (∃ v ∈ pers, ∃ p ∈ pers, ¬(p < v)) → (∃ tech ∈ techs, excludedTech tech = false) →
      build_costvariable comb ps pers techs mapping dict_id cost_df fuel_df cfg f = none) := by
  have habort : ∀ pro vint per tech,
      (pro, vint, per, tech) ∈ comboList ps pers techs →
      mkRow mapping dict_id cost_df fuel_df cfg f pro vint per tech = none →
      build_costvariable comb ps pers techs mapping dict_id cost_df fuel_df cfg f = none := by
    intro pro vint per tech hc hnone
    unfold build_costvariable buildRows
    rw [mapM_option_eq_none _ _ _ hc hnone]
  constructor
  · rintro tech ht hexc hmap ⟨pro, hpro, hne⟩ ⟨v, hv, p, hp, hle⟩
    refine habort pro v p tech (comboList_mem_of hpro hne hv hp hle ht hexc) ?_
    simp [mkRow, hmap]
  · rintro pro hpro hne hdict ⟨v, hv, p, hp, hle⟩ ⟨tech, ht, hexc⟩
    refine habort pro v p tech (comboList_mem_of hpro hne hv hp hle ht hexc) ?_
    cases hm : List.lookup tech mapping <;> simp [mkRow, hm, hdict]

/-- C7 witness: technology `"T1"` is absent from an empty Name Mapping, so
a build over one region and one period aborts. -/
theorem build_aborts_on_missing_key_witness :
    build_costvariable (fun _ => []) ["NS"] [2020] ["T1"] [] [("NS", "x")]
      [] [] ⟨0, 0⟩ ⟨0, 0, 0, 0, 0, 0, 0⟩ = none :=
  (build_aborts_on_missing_key (fun _ => []) ["NS"] [2020] ["T1"] [] [("NS", "x")]
      [] [] ⟨0, 0⟩ ⟨0, 0, 0, 0, 0, 0, 0⟩).1
    "T1" (by decide) (by decide) rfl ⟨"NS", by decide, by decide⟩
    ⟨2020, by decide, 2020, by decide, by decide⟩

/-- C8: a successful build mutates only the `CostVariable` member of the
output-tables collection — every other member is returned unchanged — and
the new `CostVariable` table is the prior rows followed by the freshly
built rows appended in one batch.  (Inputs are immutable by construction in
this functional model.) -/
theorem build_mutates_only_costvariable
    (comb : String → List OutRow) (ps : List String) (pers : List Int)
    (techs : List String) (mapping dict_id : List (String × String))
    (cost_df : List CostRow) (fuel_df : List FuelRow) (cfg : Config) (f : Factors)
    (comb' : String → List OutRow)
    (hok : build_costvariable comb ps pers techs mapping dict_id cost_df fuel_df cfg f
      = some comb') :
    ∃ rows, buildRows ps pers techs mapping dict_id cost_df fuel_df cfg f = some rows ∧
      comb' "CostVariable" = comb "CostVariable" ++ rows ∧
      (∀ k, k ≠ "CostVariable" → comb' k = comb k) := by
  unfold build_costvariable at hok
  cases hb : buildRows ps pers techs mapping dict_id cost_df fuel_df cfg f with
  | none => rw [hb] at hok; cases hok
  | some rows =>
      rw [hb] at hok
      injection hok with hok
      subst hok
      refine ⟨rows, rfl, ?_, ?_⟩
      · by_cases he : rows.isEmpty = true
        · rw [if_pos he, List.isEmpty_iff.mp he, List.append_nil]
        · rw [if_neg he]
          simp
      · intro k hk
        by_cases he : rows.isEmpty = true
        · rw [if_pos he]
        · rw [if_neg he]
          simp [hk]

/-- C8 witness: an empty enumeration returns the collection unchanged, and
the frame property holds of it. -/
theorem build_mutates_only_costvariable_witness :
    ∃ rows, buildRows [] [] [] [] [] [] [] ⟨0, 0⟩ ⟨0, 0, 0, 0, 0, 0, 0⟩ = some rows ∧
      (fun _ => ([] : List OutRow)) "CostVariable"
        = (fun _ => ([] : List OutRow)) "CostVariable" ++ rows ∧
      (∀ k, k ≠ "CostVariable" →
        (fun _ => ([] : List OutRow)) k = (fun _ => ([] : List OutRow)) k) :=
  build_mutates_only_costvariable (fun _ => []) [] [] [] [] [] [] [] ⟨0, 0⟩
    ⟨0, 0, 0, 0, 0, 0, 0⟩ (fun _ => []) rfl

/-- C10: the exclusion filter is case-sensitive — no emitted row's raw
technology identifier contains `"F_IMP"`, `"ELC"` or `"OTH"` verbatim, a
non-excluded catalog entry (e.g. one containing only a lowercase variant
such as `"t_elc"`) is priced whenever its combination is enumerated — while
price resolution matches case-insensitively (`"E_COAL"` and `"e_coal"`
resolve identically). -/
theorem tech_exclusion_case_sensitive
    (ps : List String) (pers : List Int) (techs : List String)
    (mapping dict_id : List (String × String)) (cost_df : List CostRow)
    (fuel_df : List FuelRow) (cfg : Config) (f : Factors) (rows : List OutRow)
    (hok : buildRows ps pers techs mapping dict_id cost_df fuel_df cfg f = some rows) :
    (∀ r ∈ rows,
      (strContains r.tech "F_IMP" || strContains r.tech "ELC" || strContains r.tech "OTH")
        = false) ∧
    (∀ tech ∈ techs, excludedTech tech = false → ∀ pro ∈ ps, pro ≠ "CAN" →
      ∀ vint ∈ pers, ∀ per ∈ pers, ¬(per < vint) →
      ∃ r ∈ rows, keyOf r = (pro, per, tech, vint)) ∧
    excludedTech "t_elc" = false ∧ excludedTech "t_ELC" = true ∧
    (∀ (p : Int) (df : List CostRow) (cfg2 : Config) (f2 : Factors),
      _calc_value "E_COAL" p df cfg2 f2 = _calc_value "e_coal" p df cfg2 f2) := by
  unfold buildRows at hok
  have hf2 := mapM_option_forall₂ _ _ _ hok
  have hkeys := keys_of_forall₂ mapping dict_id cost_df fuel_df cfg f hf2
  refine ⟨?_, ?_, by decide, by decide, fun p df cfg2 f2 => ?_⟩
  · intro r hr
    have hmem : keyOf r ∈ rows.map keyOf := List.mem_map_of_mem keyOf hr
    rw [hkeys] at hmem
    simp only [List.mem_map] at hmem
    obtain ⟨c, hc, hkey⟩ := hmem
    obtain ⟨pro, vint, per, tech⟩ := c
    have hprops := props_of_comboList_mem hc
    rw [show keyOf r = (r.region, r.period, r.tech, r.vintage) from rfl] at hkey
    injection hkey with e1 e'
    injection e' with e2 e''
    injection e'' with e3 e4
    rw [← e3]
    exact hprops.2.2.2.2.2.2
  · intro tech ht hexc pro hpro hne vint hv per hp hle
    have hc := comboList_mem_of hpro hne hv hp hle ht hexc
    have hkmem : ((pro, per, tech, vint) : String × Int × String × Int) ∈ rows.map keyOf := by
      rw [hkeys]
      exact List.mem_map_of_mem _ hc
    simp only [List.mem_map] at hkmem
    obtain ⟨r, hr, hkr⟩ := hkmem
    exact ⟨r, hr, hkr⟩
  · rw [calcValue_eq_applyCat, calcValue_eq_applyCat,
      show category "E_COAL" = Cat.eCoal from by decide,
      show category "e_coal" = Cat.eCoal from by decide]
    rfl

/-- A catalog with one lowercase-variant identifier and one identifier
containing the exclusion marker `ELC` verbatim. -/
def techsX : List String := ["t_elc", "t_ELC"]

def mappingX : List (String × String) := [("t_elc", "X"), ("t_ELC", "Y")]

/-- The single row the `techsX` build produces (only `"t_elc"` is priced). -/
def rowX : OutRow :=
  { region := "NS", period := 2020, tech := "t_elc", vintage := 2020,
    value := _calc_value (strTrim "X") 2020 [] cfgW facW,
    unit := "2020 M$/PJ", notes := "", source := "",
    dq_cred := 2, dq_geo := 3, dq_str := 2, dq_tech := 1, dq_time := 1,
    data_id := "ns1" }

def rowsX : List OutRow := [rowX]

/-- C10 witness: in the concrete build over `techsX`, the uppercase `t_ELC`
identifier is excluded while the lowercase `t_elc` identifier is priced. -/
theorem tech_exclusion_case_sensitive_witness :
    (∀ r ∈ rowsX,
      (strContains r.tech "F_IMP" || strContains r.tech "ELC" || strContains r.tech "OTH")
        = false) ∧
    (∀ tech ∈ techsX, excludedTech tech = false → ∀ pro ∈ psW, pro ≠ "CAN" →
      ∀ vint ∈ ([2020] : List Int), ∀ per ∈ ([2020] : List Int), ¬(per < vint) →
      ∃ r ∈ rowsX, keyOf r = (pro, per, tech, vint)) ∧
    excludedTech "t_elc" = false ∧ excludedTech "t_ELC" = true ∧
    (∀ (p : Int) (df : List CostRow) (cfg2 : Config) (f2 : Factors),
      _calc_value "E_COAL" p df cfg2 f2 = _calc_value "e_coal" p df cfg2 f2) :=
  tech_exclusion_case_sensitive psW [2020] techsX mappingX dictIdW [] [] cfgW facW
    rowsX rfl

end CostVariable
